import Mathlib

/-!
# kmsimageoverlaymetadata: metadata decoding and in-place region drawing

A shallow embedding of `src/gst-plugins/kmsimageoverlaymetadata.c`.

* C `int` / `guint` values are integers with explicit 32-bit wrapping.
* The element instance, the byte storage reachable through pointers and the
  record of calls into GLib / GStreamer / OpenCV are threaded explicitly
  through a `World`.
* Calls that raise an OpenCV error or dereference `NULL` return `none`.
-/

namespace KmsImageOverlay

/-! ## Machine integers -/

/-- The C `int` denoted by a 32-bit pattern (two's complement); also the result
of storing a `guint` through an `int *`, as `gst_structure_get` does with
`&aux->x`. -/
def to_int32 (n : Int) : Int :=
  (n + 2147483648) % 4294967296 - 2147483648

/-- Addition of two C `int`s, wrapping at 32 bits. -/
def int_add (a b : Int) : Int :=
  to_int32 (a + b)

/-! ## GLib / GStreamer values -/

/-- A `GValue`: the type tag is the constructor, the payload its argument.
`gst_structure` is a `GST_TYPE_STRUCTURE` value holding the fields of the nested
`GstStructure` in declaration order. -/
inductive GValue where
  | uint (v : Nat)
  | int (v : Int)
  | uint64 (v : Nat)
  | boolean (b : Bool)
  | string (s : String)
  | gst_structure (fields : List (String × GValue))

/-- A `GstStructure`: named fields in declaration order. GStreamer keeps field
names unique (`gst_structure_set` replaces a field of the same name). -/
abbrev GstStructure := List (String × GValue)

/-- Field names of a structure, in declaration order. -/
def field_names (s : GstStructure) : List String :=
  s.map Prod.fst

/-- Function `gst_structure_n_fields`. -/
def gst_structure_n_fields (s : GstStructure) : Nat :=
  s.length

/-- Function `gst_structure_nth_field_name`. -/
def gst_structure_nth_field_name (s : GstStructure) (index : Nat) : Option String :=
  (s[index]?).map Prod.fst

/-- Function `gst_structure_get_value`: the value of the first field carrying
the given name, if any. -/
def gst_structure_get_value : GstStructure → String → Option GValue
  | [], _ => none
  | (n, v) :: rest, fieldname =>
    if n = fieldname then some v else gst_structure_get_value rest fieldname

/-- Call `gst_structure_get (s, fieldname, GST_TYPE_STRUCTURE, &face, NULL)`:
succeeds (result `some`, a copy of the nested structure) exactly when the
field exists and its value has type `GST_TYPE_STRUCTURE`. -/
def gst_structure_get_structure (s : GstStructure) (fieldname : String) :
    Option GstStructure :=
  match gst_structure_get_value s fieldname with
  | some (GValue.gst_structure face) => some face
  | _ => none

/-- Call `gst_structure_get (face, fieldname, G_TYPE_UINT, out, NULL)` where
`out` points at an `int` currently holding `old`: when the field exists with
type `G_TYPE_UINT` its 32 bits are stored through `out`; otherwise the call
returns `FALSE` and `*out` keeps its value. The result is the `int` read back
from `*out` (the return value of the call is discarded by the caller). -/
def gst_structure_get_uint (face : GstStructure) (fieldname : String) (old : Int) : Int :=
  match gst_structure_get_value face fieldname with
  | some (GValue.uint v) => to_int32 v
  | _ => old

/-! ## OpenCV value types -/

/-- OpenCV `CvRect` (four `int` fields). -/
structure CvRect where
  x : Int
  y : Int
  width : Int
  height : Int
  deriving DecidableEq

/-- OpenCV `CvPoint`. -/
structure CvPoint where
  x : Int
  y : Int
  deriving DecidableEq

/-- OpenCV `CvSize`. -/
structure CvSize where
  width : Int
  height : Int
  deriving DecidableEq

/-- OpenCV `CvScalar`; the source only builds scalars from integer constants. -/
structure CvScalar where
  val0 : Int
  val1 : Int
  val2 : Int
  val3 : Int
  deriving DecidableEq

/-- Constructor `cvPoint`. -/
def cvPoint (x y : Int) : CvPoint := ⟨x, y⟩

/-- Constructor `cvSize`. -/
def cvSize (width height : Int) : CvSize := ⟨width, height⟩

/-- Constructor `cvScalar`. -/
def cvScalar (val0 val1 val2 val3 : Int) : CvScalar := ⟨val0, val1, val2, val3⟩

/-! ## get_faces -/

/-- One iteration of the `for` loop of `get_faces` at index `aux`, returning
the list after the iteration. -/
def get_faces_body (faces : GstStructure) (aux : Nat) (list : List CvRect) : List CvRect :=
  match gst_structure_nth_field_name faces aux with
  | none => list
  | some name =>
    if name = "timestamp" then list
    else
      match gst_structure_get_structure faces name with
      | none => list
      | some face =>
        -- g_slice_new0 (CvRect): all four fields start at 0
        let x := gst_structure_get_uint face "x" 0
        let y := gst_structure_get_uint face "y" 0
        let width := gst_structure_get_uint face "width" 0
        let height := gst_structure_get_uint face "height" 0
        list ++ [⟨x, y, width, height⟩]

/-- The loop `for (aux = ...; aux < len; aux++)` of `get_faces` with `n`
iterations left. -/
def get_faces_loop (faces : GstStructure) : Nat → Nat → List CvRect → List CvRect
  | 0, _, list => list
  | n + 1, aux, list => get_faces_loop faces n (aux + 1) (get_faces_body faces aux list)

/-- Function `get_faces`. -/
def get_faces (faces : GstStructure) : List CvRect :=
  get_faces_loop faces (gst_structure_n_fields faces) 0 []

/-- The rectangle `get_faces` builds from a nested structure: each coordinate
starts at 0 and is overwritten by the same-named `G_TYPE_UINT` sub-field. -/
def face_rect (face : GstStructure) : CvRect :=
  ⟨gst_structure_get_uint face "x" 0, gst_structure_get_uint face "y" 0,
   gst_structure_get_uint face "width" 0, gst_structure_get_uint face "height" 0⟩

/-- The region one field of the blob contributes: none for `timestamp` and for
a value that is not a nested structure, `face_rect` of the nested structure
otherwise. -/
def field_region (field : String × GValue) : Option CvRect :=
  if field.1 = "timestamp" then none
  else
    match field.2 with
    | GValue.gst_structure face => some (face_rect face)
    | _ => none

/-- The value of a sub-field when it is a `G_TYPE_UINT`. -/
def uint_field (face : GstStructure) (fieldname : String) : Option Nat :=
  match gst_structure_get_value face fieldname with
  | some (GValue.uint v) => some v
  | _ => none

/-- The region a field yields according to the specification's wording: a
field other than `timestamp` whose value is a nested structure with
unsigned-integer sub-fields `x`, `y`, `width`, `height` yields the region
carrying those four values; any other field yields nothing. -/
def spec_field_region (field : String × GValue) : Option CvRect :=
  if field.1 = "timestamp" then none
  else
    match field.2 with
    | GValue.gst_structure face =>
      match uint_field face "x", uint_field face "y", uint_field face "width",
          uint_field face "height" with
      | some x, some y, some width, some height => some ⟨x, y, width, height⟩
      | _, _, _, _ => none
    | _ => none

/-- The blob `{r0: {x:10, y:10, width:20, height:20}, timestamp: 123}`. -/
def blob_r0_timestamp : GstStructure :=
  [("r0", GValue.gst_structure [("x", GValue.uint 10), ("y", GValue.uint 10),
      ("width", GValue.uint 20), ("height", GValue.uint 20)]),
   ("timestamp", GValue.uint64 123)]

/-- A blob whose single field is a nested structure without `height`. -/
def blob_missing_height : GstStructure :=
  [("r0", GValue.gst_structure [("x", GValue.uint 10), ("y", GValue.uint 10),
      ("width", GValue.uint 20)])]

/-- A blob with one well-formed region field and one nested structure without
`height`. -/
def blob_wellformed_malformed : GstStructure :=
  [("r0", GValue.gst_structure [("x", GValue.uint 10), ("y", GValue.uint 10),
      ("width", GValue.uint 20), ("height", GValue.uint 20)]),
   ("r1", GValue.gst_structure [("x", GValue.uint 1), ("y", GValue.uint 2),
      ("width", GValue.uint 3)])]

/-- A blob whose region has `x = 2^31` and `width = 2^32 - 1`. -/
def blob_large_values : GstStructure :=
  [("r0", GValue.gst_structure [("x", GValue.uint 2147483648), ("y", GValue.uint 5),
      ("width", GValue.uint 4294967295), ("height", GValue.uint 7)])]

/-! ## Images, frames and the world -/

/-- OpenCV `IplImage` header: geometry plus the two data pointers.
`imageDataOrigin` is the block obtained from the allocator (the one
`cvReleaseImage` frees); `imageData` is the address drawing writes to. -/
structure IplImage where
  nChannels : Int
  depth : Int
  width : Int
  height : Int
  widthStep : Int
  imageData : Nat
  imageDataOrigin : Nat
  deriving DecidableEq

/-- Constant `IPL_DEPTH_8U`. -/
def IPL_DEPTH_8U : Int := 8

/-- Metadata attached to a buffer (`KmsSerializableMeta`, field `data`). -/
structure KmsSerializableMeta where
  data : GstStructure

/-- A `GstBuffer`: the address `gst_buffer_map` reports in `info.data`, and the
serializable metadata attached to the buffer, if any. -/
structure GstBuffer where
  data : Nat
  serializable_meta : Option KmsSerializableMeta

/-- The `GstVideoInfo` fields the element reads. -/
structure GstVideoInfo where
  width : Int
  height : Int

/-- A `GstVideoFrame`. -/
structure GstVideoFrame where
  info : GstVideoInfo
  buffer : GstBuffer

/-- Result type of the transform (`GstFlowReturn`). -/
inductive GstFlowReturn where
  | GST_FLOW_OK
  | GST_FLOW_ERROR
  deriving DecidableEq

/-- Calls the element makes into GLib, GStreamer and OpenCV, and the one
pointer store into the image header, in program order. -/
inductive Event where
  | gst_buffer_map (data : Nat)
  | gst_buffer_unmap (data : Nat)
  | GST_OBJECT_LOCK
  | GST_OBJECT_UNLOCK
  | cvCreateImage (size : CvSize) (depth : Int) (channels : Int)
  | cvReleaseImage (origin : Nat)
  | store_imageData (data : Nat)
  | kms_buffer_get_serializable_meta (data : Nat)
  | cvRectangle (pt1 pt2 : CvPoint) (color : CvScalar) (thickness line_type shift : Int)
  | warn_invalid_property_id (property_id : Nat)
  deriving DecidableEq

/-- Private data of the element (`struct _KmsImageOverlayPrivate`). The four
`gdouble` percentage fields are never read or written in this file and are left
out. `cvImage = none` is the `NULL` pointer. -/
structure KmsImageOverlayPrivate where
  cvImage : Option IplImage
  show_debug_info : Bool

/-- The element instance together with what it can reach: `mem a` is the byte
contents of the storage block at address `a`, `brk` the next address the
allocator hands out, `trace` the calls made so far. -/
structure World where
  priv : KmsImageOverlayPrivate
  mem : Nat → List Nat
  brk : Nat
  trace : List Event

/-- Append one call to the trace. -/
def World.emit (w : World) (e : Event) : World :=
  { w with trace := w.trace ++ [e] }

/-- Property identifier `PROP_SHOW_DEBUG_INFO` (the enum starts at `PROP_0`). -/
def PROP_SHOW_DEBUG_INFO : Nat := 1

/-- Function `g_value_get_boolean`; `FALSE` when the value holds no boolean. -/
def g_value_get_boolean : GValue → Bool
  | GValue.boolean b => b
  | _ => false

/-- Function `kms_image_overlay_init` on a fresh instance. -/
def kms_image_overlay_init (w : World) : World :=
  { w with priv := { show_debug_info := false, cvImage := none } }

/-- Function `kms_image_overlay_set_property`. -/
def kms_image_overlay_set_property (property_id : Nat) (value : GValue) (w : World) : World :=
  let w := w.emit Event.GST_OBJECT_LOCK
  let w :=
    if property_id = PROP_SHOW_DEBUG_INFO then
      { w with priv := { w.priv with show_debug_info := g_value_get_boolean value } }
    else
      w.emit (Event.warn_invalid_property_id property_id)
  w.emit Event.GST_OBJECT_UNLOCK

/-- Function `kms_image_overlay_get_property`; the first component is the
`GValue` the out-parameter `value` holds after the call. -/
def kms_image_overlay_get_property (property_id : Nat) (value : GValue) (w : World) :
    GValue × World :=
  let w := w.emit Event.GST_OBJECT_LOCK
  let r : GValue × World :=
    if property_id = PROP_SHOW_DEBUG_INFO then
      (GValue.boolean w.priv.show_debug_info, w)
    else
      (value, w.emit (Event.warn_invalid_property_id property_id))
  (r.1, r.2.emit Event.GST_OBJECT_UNLOCK)

/-! ## OpenCV calls -/

/-- Row stride `cvInitImageHeader` computes: the row size in bytes rounded up
to a multiple of 4. -/
def image_width_step (width channels depth : Int) : Int :=
  ((width * channels * depth + 7) / 8 + 3) / 4 * 4

/-- Function `cvCreateImage`: raises an OpenCV error (`none`) on a negative
size; otherwise allocates a fresh block and returns a header pointing at it.
The contents of the fresh block are whatever `mem` holds there. Allocation
itself is taken to succeed: running out of memory is fatal and not part of the
model. -/
def cvCreateImage (size : CvSize) (depth channels : Int) (w : World) :
    Option (IplImage × World) :=
  if size.width < 0 ∨ size.height < 0 then none
  else
    some ({ nChannels := channels, depth := depth, width := size.width,
            height := size.height,
            widthStep := image_width_step size.width channels depth,
            imageData := w.brk, imageDataOrigin := w.brk },
          { (w.emit (Event.cvCreateImage size depth channels)) with brk := w.brk + 1 })

/-- Call `cvReleaseImage (&imageoverlay->priv->cvImage)`: frees the header and
the block at `imageDataOrigin`, and resets the pointer to `NULL`. -/
def cvReleaseImage (w : World) : World :=
  match w.priv.cvImage with
  | none => w
  | some img =>
    { (w.emit (Event.cvReleaseImage img.imageDataOrigin)) with
      priv := { w.priv with cvImage := none } }

/-- The pixels a non-antialiased OpenCV rectangle covers, as a function of the
image size and the drawing arguments: `raster width height pt1 pt2 thickness
line_type shift row col`. The rasteriser itself is OpenCV's and is taken as a
parameter. -/
abbrev Raster := Int → Int → CvPoint → CvPoint → Int → Int → Int → Nat → Nat → Bool

/-- Conversion `saturate_cast<uchar>` on an integral colour component. -/
def saturate_uchar (v : Int) : Nat :=
  if v < 0 then 0 else if 255 < v then 255 else v.toNat

/-- Component `val[ch]` of a scalar. -/
def CvScalar.val (c : CvScalar) (ch : Nat) : Int :=
  match ch with
  | 0 => c.val0
  | 1 => c.val1
  | 2 => c.val2
  | _ => c.val3

/-- The byte at offset `i` of the image data after drawing: bytes of covered
pixels inside the image take the colour component of their channel, all other
bytes keep their value `b`. -/
def put_pixel_byte (raster : Raster) (img : IplImage) (pt1 pt2 : CvPoint) (color : CvScalar)
    (thickness line_type shift : Int) (i : Nat) (b : Nat) : Nat :=
  let step := img.widthStep.toNat
  let row := i / step
  let col := i % step / img.nChannels.toNat
  let ch := i % step % img.nChannels.toNat
  if (col : Int) < img.width ∧ (row : Int) < img.height ∧
      raster img.width img.height pt1 pt2 thickness line_type shift row col = true then
    saturate_uchar (color.val ch)
  else b

/-- Rewrite a block byte by byte, `f i b` being the new value of the byte at
offset `i` that held `b`. -/
def map_bytes (f : Nat → Nat → Nat) : Nat → List Nat → List Nat
  | _, [] => []
  | i, b :: bs => f i b :: map_bytes f (i + 1) bs

/-- Function `cvRectangle`: raises an OpenCV error (`none`) on a `NULL` image;
otherwise overwrites the covered pixels of the block at `imageData`. -/
def cvRectangle (raster : Raster) (img : Option IplImage) (pt1 pt2 : CvPoint)
    (color : CvScalar) (thickness line_type shift : Int) (w : World) : Option World :=
  match img with
  | none => none
  | some im =>
    some { (w.emit (Event.cvRectangle pt1 pt2 color thickness line_type shift)) with
           mem := fun a =>
             if a = im.imageData then
               map_bytes (put_pixel_byte raster im pt1 pt2 color thickness line_type shift) 0
                 (w.mem a)
             else w.mem a }

/-! ## The element -/

/-- Function `kms_image_overlay_display_detections_overlay_img`. -/
def kms_image_overlay_display_detections_overlay_img (raster : Raster) :
    List CvRect → World → Option World
  | [], w => some w
  | r :: rest, w =>
    match cvRectangle raster w.priv.cvImage (cvPoint r.x r.y)
        (cvPoint (int_add r.x r.width) (int_add r.y r.height)) (cvScalar 0 255 0 0) 3 8 0 w with
    | none => none
    | some w1 => kms_image_overlay_display_detections_overlay_img raster rest w1

/-- Function `kms_image_overlay_initialize_images`. -/
def kms_image_overlay_initialize_images (frame : GstVideoFrame) (w : World) : Option World :=
  match w.priv.cvImage with
  | none =>
    match cvCreateImage (cvSize frame.info.width frame.info.height) IPL_DEPTH_8U 3 w with
    | none => none
    | some (img, w1) => some { w1 with priv := { w1.priv with cvImage := some img } }
  | some cvImage =>
    if cvImage.width ≠ frame.info.width ∨ cvImage.height ≠ frame.info.height then
      let w0 := cvReleaseImage w
      match cvCreateImage (cvSize frame.info.width frame.info.height) IPL_DEPTH_8U 3 w0 with
      | none => none
      | some (img, w1) => some { w1 with priv := { w1.priv with cvImage := some img } }
    else some w

/-- Statement `imageoverlay->priv->cvImage->imageData = (char *) info.data`
(a `NULL` image pointer cannot be dereferenced: `none`). -/
def store_imageData (data : Nat) (w : World) : Option World :=
  match w.priv.cvImage with
  | none => none
  | some img =>
    some { (w.emit (Event.store_imageData data)) with
           priv := { w.priv with cvImage := some { img with imageData := data } } }

/-- The tail of `kms_image_overlay_transform_frame_ip` from the label `end`. -/
def transform_frame_ip_end (frame : GstVideoFrame) (w : World) : GstFlowReturn × World :=
  let w := w.emit Event.GST_OBJECT_UNLOCK
  let w := w.emit (Event.gst_buffer_unmap frame.buffer.data)
  (GstFlowReturn.GST_FLOW_OK, w)

/-- Function `kms_image_overlay_transform_frame_ip`. -/
def kms_image_overlay_transform_frame_ip (raster : Raster) (frame : GstVideoFrame) (w : World) :
    Option (GstFlowReturn × World) :=
  let w := w.emit (Event.gst_buffer_map frame.buffer.data)
  match kms_image_overlay_initialize_images frame w with
  | none => none
  | some w =>
    match store_imageData frame.buffer.data w with
    | none => none
    | some w =>
      let w := w.emit Event.GST_OBJECT_LOCK
      let w := w.emit (Event.kms_buffer_get_serializable_meta frame.buffer.data)
      match frame.buffer.serializable_meta with
      | none => some (transform_frame_ip_end frame w)
      | some metadata =>
        let faces_list := get_faces metadata.data
        match faces_list with
        | [] => some (transform_frame_ip_end frame w)
        | _ :: _ =>
          match kms_image_overlay_display_detections_overlay_img raster faces_list w with
          | none => none
          | some w => some (transform_frame_ip_end frame w)

/-! ## Vocabulary for the statements -/

/-- The world with the debug flag replaced by `b` and nothing else changed. -/
def World.with_debug_info (b : Bool) (w : World) : World :=
  { w with priv := { w.priv with show_debug_info := b } }

/-- The `cvRectangle` call the loop of
`kms_image_overlay_display_detections_overlay_img` issues for the region `r`. -/
def draw_call (r : CvRect) : Event :=
  Event.cvRectangle (cvPoint r.x r.y) (cvPoint (int_add r.x r.width) (int_add r.y r.height))
    (cvScalar 0 255 0 0) 3 8 0

/-- The draw the specification describes for the region `r`: corners `(x, y)`
and `(x + width, y + height)`, green, thickness 3, 8-connected, shift 0. -/
def spec_draw_call (r : CvRect) : Event :=
  Event.cvRectangle ⟨r.x, r.y⟩ ⟨r.x + r.width, r.y + r.height⟩ ⟨0, 255, 0, 0⟩ 3 8 0

/-- Whether an event is a drawing call. -/
def Event.is_draw : Event → Bool
  | Event.cvRectangle _ _ _ _ _ _ => true
  | _ => false

/-- Whether an event changes the drawing-surface handle: allocation, release,
or the store that repoints its pixel storage. -/
def Event.mutates_surface : Event → Bool
  | Event.cvCreateImage _ _ _ => true
  | Event.cvReleaseImage _ => true
  | Event.store_imageData _ => true
  | _ => false

/-- Whether, in a run of events starting with the lock held or not (`held`),
every change of the surface handle happens while the lock is held. -/
def surface_guarded : Bool → List Event → Bool
  | _, [] => true
  | _, Event.GST_OBJECT_LOCK :: es => surface_guarded true es
  | _, Event.GST_OBJECT_UNLOCK :: es => surface_guarded false es
  | held, e :: es => (held || !e.mutates_surface) && surface_guarded held es

/-- Whether, in a run of events starting with the lock held or not (`held`),
every drawing call happens while the lock is held. -/
def draws_guarded : Bool → List Event → Bool
  | _, [] => true
  | _, Event.GST_OBJECT_LOCK :: es => draws_guarded true es
  | _, Event.GST_OBJECT_UNLOCK :: es => draws_guarded false es
  | held, e :: es => (held || !e.is_draw) && draws_guarded held es

/-- Whether the lock is held after a run of events. -/
def lock_held_after : Bool → List Event → Bool
  | held, [] => held
  | _, Event.GST_OBJECT_LOCK :: es => lock_held_after true es
  | _, Event.GST_OBJECT_UNLOCK :: es => lock_held_after false es
  | held, _ :: es => lock_held_after held es

/-- The calls `kms_image_overlay_initialize_images` makes for a frame, given
the surface it finds. -/
def surface_events (frame : GstVideoFrame) (cvImage : Option IplImage) : List Event :=
  match cvImage with
  | none => [Event.cvCreateImage (cvSize frame.info.width frame.info.height) IPL_DEPTH_8U 3]
  | some img =>
    if img.width ≠ frame.info.width ∨ img.height ≠ frame.info.height then
      [Event.cvReleaseImage img.imageDataOrigin,
       Event.cvCreateImage (cvSize frame.info.width frame.info.height) IPL_DEPTH_8U 3]
    else []

/-- The regions decoded for a frame: none without metadata. -/
def frame_faces (frame : GstVideoFrame) : List CvRect :=
  match frame.buffer.serializable_meta with
  | none => []
  | some metadata => get_faces metadata.data

/-- The byte at offset `i` after the draws for all regions of `faces`, in list
order, on a byte that held `b`. -/
def paint_all (raster : Raster) (img : IplImage) (faces : List CvRect) (i : Nat) (b : Nat) : Nat :=
  faces.foldl (fun acc r => put_pixel_byte raster img (cvPoint r.x r.y)
    (cvPoint (int_add r.x r.width) (int_add r.y r.height)) (cvScalar 0 255 0 0) 3 8 0 i acc) b

/-- The header `cvCreateImage` returns for a frame when the allocator is at
`brk`. -/
def fresh_image (frame : GstVideoFrame) (brk : Nat) : IplImage :=
  { nChannels := 3, depth := IPL_DEPTH_8U, width := frame.info.width,
    height := frame.info.height,
    widthStep := image_width_step frame.info.width 3 IPL_DEPTH_8U,
    imageData := brk, imageDataOrigin := brk }

/-- Whether `kms_image_overlay_initialize_images` has to allocate for a frame:
there is no surface, or its size differs from the frame's. -/
def needs_surface (frame : GstVideoFrame) (cvImage : Option IplImage) : Bool :=
  match cvImage with
  | none => true
  | some img => decide (img.width ≠ frame.info.width ∨ img.height ≠ frame.info.height)

/-- The surface header after `kms_image_overlay_initialize_images`. -/
def surface_for (frame : GstVideoFrame) (w : World) : IplImage :=
  match w.priv.cvImage with
  | none => fresh_image frame w.brk
  | some img =>
    if img.width ≠ frame.info.width ∨ img.height ≠ frame.info.height then
      fresh_image frame w.brk
    else img

/-- The events of one call of `kms_image_overlay_transform_frame_ip`, in
program order. -/
def transform_events (frame : GstVideoFrame) (cvImage : Option IplImage) : List Event :=
  Event.gst_buffer_map frame.buffer.data :: surface_events frame cvImage ++
    [Event.store_imageData frame.buffer.data, Event.GST_OBJECT_LOCK,
     Event.kms_buffer_get_serializable_meta frame.buffer.data] ++
    (frame_faces frame).map draw_call ++
    [Event.GST_OBJECT_UNLOCK, Event.gst_buffer_unmap frame.buffer.data]

/-- The world after one call of `kms_image_overlay_transform_frame_ip` on a
frame of non-negative size. -/
def transform_result (raster : Raster) (frame : GstVideoFrame) (w : World) : World :=
  { priv := { cvImage := some { surface_for frame w with imageData := frame.buffer.data },
              show_debug_info := w.priv.show_debug_info },
    mem := fun a =>
      if a = frame.buffer.data then
        map_bytes (paint_all raster { surface_for frame w with imageData := frame.buffer.data }
          (frame_faces frame)) 0 (w.mem a)
      else w.mem a,
    brk := if needs_surface frame w.priv.cvImage then w.brk + 1 else w.brk,
    trace := w.trace ++ transform_events frame w.priv.cvImage }

/-- A sample rasteriser for concrete evaluation: the one-pixel outline of the
rectangle spanned by the two corners. -/
def outline_raster : Raster :=
  fun _ _ pt1 pt2 _ _ _ row col =>
    decide ((((col : Int) = pt1.x ∨ (col : Int) = pt2.x) ∧ pt1.y ≤ row ∧ (row : Int) ≤ pt2.y) ∨
      (((row : Int) = pt1.y ∨ (row : Int) = pt2.y) ∧ pt1.x ≤ col ∧ (col : Int) ≤ pt2.x))

/-- A freshly initialised element; every storage block holds 48 bytes of 9. -/
def world_fresh : World :=
  { priv := { cvImage := none, show_debug_info := false },
    mem := fun _ => List.replicate 48 9, brk := 1000, trace := [] }

/-- An element whose 4x4 surface is bound to the block at address 0. -/
def world_bound : World :=
  { priv := { cvImage := some ⟨3, 8, 4, 4, 12, 0, 1000⟩, show_debug_info := false },
    mem := fun _ => List.replicate 48 9, brk := 1001, trace := [] }

/-- A 4x4 frame at address 0 without metadata. -/
def frame_plain : GstVideoFrame :=
  { info := ⟨4, 4⟩, buffer := { data := 0, serializable_meta := none } }

/-- A 4x4 frame at address 0 carrying the blob
`{r0: {x:0, y:0, width:2, height:2}, timestamp: 123}`. -/
def frame_with_region : GstVideoFrame :=
  { info := ⟨4, 4⟩,
    buffer := { data := 0, serializable_meta := some ⟨[("r0", GValue.gst_structure
      [("x", GValue.uint 0), ("y", GValue.uint 0), ("width", GValue.uint 2),
       ("height", GValue.uint 2)]), ("timestamp", GValue.uint64 123)]⟩ } }

/-- A 2x3 frame at address 1 without metadata. -/
def frame_small : GstVideoFrame :=
  { info := ⟨2, 3⟩, buffer := { data := 1, serializable_meta := none } }

/-- A region whose right edge `x + width` is 2^31. -/
def rect_overflow : CvRect := ⟨2147483647, 0, 1, 0⟩

/-! ## Lemmas: machine integers -/

theorem to_int32_lower (n : Int) : -2147483648 ≤ to_int32 n := by
  unfold to_int32; omega

theorem to_int32_upper (n : Int) : to_int32 n < 2147483648 := by
  unfold to_int32; omega

theorem to_int32_of_fits (n : Int) (h0 : -2147483648 ≤ n) (h1 : n < 2147483648) :
    to_int32 n = n := by
  unfold to_int32; omega

theorem to_int32_of_high (n : Int) (h0 : 2147483648 ≤ n) (h1 : n < 4294967296) :
    to_int32 n = n - 4294967296 := by
  unfold to_int32; omega

/-! ## Lemmas: structures and get_faces -/

theorem get_value_mem : ∀ (s : GstStructure) (n : String) (v : GValue),
    gst_structure_get_value s n = some v → (n, v) ∈ s := by
  intro s
  induction s with
  | nil => intro n v h; simp [gst_structure_get_value] at h
  | cons hd tl ih =>
    intro n v h
    obtain ⟨n0, v0⟩ := hd
    simp only [gst_structure_get_value] at h
    by_cases hn : n0 = n
    · simp only [hn, if_true, Option.some.injEq] at h
      subst hn; subst h
      exact List.mem_cons_self _ _
    · simp only [hn, if_false] at h
      exact List.mem_cons_of_mem _ (ih n v h)

theorem get_value_of_nodup : ∀ (s : GstStructure) (i : Nat) (n : String) (v : GValue),
    (field_names s).Nodup → s[i]? = some (n, v) → gst_structure_get_value s n = some v := by
  intro s
  induction s with
  | nil => intro i n v _ h; simp at h
  | cons hd tl ih =>
    intro i n v hnd h
    obtain ⟨n0, v0⟩ := hd
    simp only [field_names, List.map_cons, List.nodup_cons] at hnd
    cases i with
    | zero =>
      simp only [List.getElem?_cons_zero, Option.some.injEq, Prod.mk.injEq] at h
      obtain ⟨h1, h2⟩ := h
      subst h1; subst h2
      simp [gst_structure_get_value]
    | succ j =>
      simp only [List.getElem?_cons_succ] at h
      have hmem : n ∈ tl.map Prod.fst := by
        have := List.getElem?_mem h
        exact List.mem_map_of_mem Prod.fst this
      have hne : n0 ≠ n := by
        intro e; subst e; exact hnd.1 hmem
      simp only [gst_structure_get_value, hne, if_false]
      exact ih j n v hnd.2 h

theorem get_faces_body_eq (faces : GstStructure) (hnd : (field_names faces).Nodup)
    (aux : Nat) (field : String × GValue) (h : faces[aux]? = some field) (list : List CvRect) :
    get_faces_body faces aux list = list ++ (field_region field).toList := by
  obtain ⟨name, v⟩ := field
  have hv := get_value_of_nodup faces aux name v hnd h
  unfold get_faces_body gst_structure_nth_field_name field_region
  simp only [h, Option.map_some']
  by_cases hts : name = "timestamp"
  · simp [hts]
  · simp only [hts, if_false, gst_structure_get_structure, hv]
    cases v <;> simp [face_rect]

theorem get_faces_loop_eq (faces : GstStructure) (hnd : (field_names faces).Nodup) :
    ∀ (n aux : Nat) (list : List CvRect), aux + n = faces.length →
      get_faces_loop faces n aux list = list ++ (faces.drop aux).filterMap field_region := by
  intro n
  induction n with
  | zero =>
    intro aux list h
    have : faces.drop aux = [] := List.drop_eq_nil_of_le (by omega)
    simp [get_faces_loop, this]
  | succ m ih =>
    intro aux list h
    have hlt : aux < faces.length := by omega
    have hget : faces[aux]? = some faces[aux] := List.getElem?_eq_getElem hlt
    have hdrop : faces.drop aux = faces[aux] :: faces.drop (aux + 1) :=
      List.drop_eq_getElem_cons hlt
    rw [get_faces_loop, get_faces_body_eq faces hnd aux _ hget, ih (aux + 1) _ (by omega), hdrop]
    rw [List.filterMap_cons]
    cases hfr : field_region faces[aux] <;>
      simp only [Option.toList, List.append_nil, List.append_assoc, List.singleton_append]

/-- Closed form of `get_faces` on a structure with unique field names. -/
theorem get_faces_eq_filterMap (faces : GstStructure) (hnd : (field_names faces).Nodup) :
    get_faces faces = faces.filterMap field_region := by
  unfold get_faces gst_structure_n_fields
  rw [get_faces_loop_eq faces hnd faces.length 0 [] (by omega)]
  simp

theorem get_structure_mem (s : GstStructure) (n : String) (face : GstStructure)
    (h : gst_structure_get_structure s n = some face) : (n, GValue.gst_structure face) ∈ s := by
  unfold gst_structure_get_structure at h
  cases hv : gst_structure_get_value s n with
  | none => simp [hv] at h
  | some v =>
    cases v <;> simp [hv] at h
    subst h
    exact get_value_mem s n _ hv

theorem get_uint_cases (face : GstStructure) (k : String) :
    gst_structure_get_uint face k 0 = 0 ∨
      ∃ v, (k, GValue.uint v) ∈ face ∧ gst_structure_get_uint face k 0 = to_int32 v := by
  unfold gst_structure_get_uint
  cases hv : gst_structure_get_value face k with
  | none => left; rfl
  | some v =>
    cases v with
    | uint u => right; exact ⟨u, get_value_mem face k _ hv, rfl⟩
    | _ => left; rfl

theorem get_uint_of_uint_field (face : GstStructure) (k : String) (v : Nat) (old : Int)
    (h : uint_field face k = some v) : gst_structure_get_uint face k old = to_int32 v := by
  unfold uint_field at h
  unfold gst_structure_get_uint
  cases hv : gst_structure_get_value face k with
  | none => simp [hv] at h
  | some g =>
    cases g <;> simp [hv] at h
    subst h; rfl

theorem get_uint_of_no_uint_field (face : GstStructure) (k : String) (old : Int)
    (h : uint_field face k = none) : gst_structure_get_uint face k old = old := by
  unfold uint_field at h
  unfold gst_structure_get_uint
  cases hv : gst_structure_get_value face k with
  | none => rfl
  | some g => cases g <;> simp [hv] at h <;> rfl

theorem get_faces_body_mem (faces : GstStructure) (aux : Nat) (list : List CvRect) (r : CvRect)
    (hr : r ∈ get_faces_body faces aux list) :
    r ∈ list ∨ ∃ name face, (name, GValue.gst_structure face) ∈ faces ∧ name ≠ "timestamp" ∧
        r = face_rect face := by
  unfold get_faces_body at hr
  cases hn : gst_structure_nth_field_name faces aux with
  | none => simp only [hn] at hr; exact Or.inl hr
  | some name =>
    simp only [hn] at hr
    by_cases hts : name = "timestamp"
    · simp only [hts, if_true] at hr; exact Or.inl hr
    · simp only [hts, if_false] at hr
      cases hs : gst_structure_get_structure faces name with
      | none => simp only [hs] at hr; exact Or.inl hr
      | some face =>
        simp only [hs, List.mem_append, List.mem_singleton] at hr
        rcases hr with hr | hr
        · exact Or.inl hr
        · exact Or.inr ⟨name, face, get_structure_mem faces name face hs, hts, hr⟩

theorem get_faces_loop_mem (faces : GstStructure) :
    ∀ (n aux : Nat) (list : List CvRect) (r : CvRect), r ∈ get_faces_loop faces n aux list →
      r ∈ list ∨ ∃ name face, (name, GValue.gst_structure face) ∈ faces ∧ name ≠ "timestamp" ∧
        r = face_rect face := by
  intro n
  induction n with
  | zero => intro aux list r hr; exact Or.inl hr
  | succ m ih =>
    intro aux list r hr
    rw [get_faces_loop] at hr
    rcases ih (aux + 1) _ r hr with h | h
    · exact get_faces_body_mem faces aux list r h
    · exact Or.inr h

/-- Every rectangle `get_faces` returns is `face_rect` of a nested structure
held by some field of the blob other than `timestamp`. -/
theorem get_faces_mem (faces : GstStructure) (r : CvRect) (hr : r ∈ get_faces faces) :
    ∃ name face, (name, GValue.gst_structure face) ∈ faces ∧ name ≠ "timestamp" ∧
        r = face_rect face := by
  rcases get_faces_loop_mem faces _ 0 [] r hr with h | h
  · simp at h
  · exact h

theorem get_uint_reads (face : GstStructure) (k : String) :
    (∀ v : Nat, uint_field face k = some v →
      (v < 2147483648 →
        gst_structure_get_uint face k 0 = v ∧ 0 ≤ gst_structure_get_uint face k 0) ∧
      (2147483648 ≤ v → v < 4294967296 →
        gst_structure_get_uint face k 0 = (v : Int) - 4294967296 ∧
        gst_structure_get_uint face k 0 < 0)) ∧
    (uint_field face k = none → gst_structure_get_uint face k 0 = 0) := by
  refine ⟨?_, fun h => get_uint_of_no_uint_field face k 0 h⟩
  intro v hv
  rw [get_uint_of_uint_field face k v 0 hv]
  constructor
  · intro h
    rw [to_int32_of_fits _ (by omega) (by omega)]
    exact ⟨rfl, by omega⟩
  · intro h0 h1
    rw [to_int32_of_high _ (by omega) (by omega)]
    exact ⟨rfl, by omega⟩

theorem field_names_append (a b : GstStructure) :
    field_names (a ++ b) = field_names a ++ field_names b := by
  simp [field_names]

/-! ## Decoding (C1, C2, C5) -/

/-- C1, as stated, fails: a field holding a nested structure without `height`
is not a nested structure with the four unsigned sub-fields, so the claim
gives it no region, yet `get_faces` returns a region for it, with height 0. -/
theorem get_faces_missing_height_counterexample :
    (field_names blob_missing_height).Nodup ∧
    blob_missing_height.filterMap spec_field_region = [] ∧
    get_faces blob_missing_height = [⟨10, 10, 20, 0⟩] ∧
    get_faces blob_missing_height ≠ blob_missing_height.filterMap spec_field_region := by
  decide

/-- C1 (amended): on a blob with unique field names `get_faces` returns, in
field-declaration order and nothing else, one region per field that is not
named `timestamp` and whose value is a nested structure, whatever its
sub-fields; each coordinate is the same-named unsigned-integer sub-field read
as a 32-bit `int`, or 0 when that sub-field is absent or of another type. A
field that is well-formed in the sense of the specification, with values below
2^31, yields exactly the region carrying its four values. A blob whose only
field is `timestamp` yields the empty list, and the blob
`{r0: {x:10,y:10,width:20,height:20}, timestamp: 123}` yields `{10,10,20,20}`. -/
theorem get_faces_regions (faces : GstStructure) (hnd : (field_names faces).Nodup) :
    get_faces faces = faces.filterMap field_region ∧
    (∀ (field : String × GValue) (r : CvRect), spec_field_region field = some r →
        r.x < 2147483648 → r.y < 2147483648 → r.width < 2147483648 → r.height < 2147483648 →
        field_region field = some r) ∧
    (∀ (face : GstStructure) (k : String),
        (∀ v, uint_field face k = some v → gst_structure_get_uint face k 0 = to_int32 v) ∧
        (uint_field face k = none → gst_structure_get_uint face k 0 = 0)) ∧
    (∀ v : GValue, get_faces [("timestamp", v)] = []) ∧
    get_faces blob_r0_timestamp = [⟨10, 10, 20, 20⟩] := by
  refine ⟨get_faces_eq_filterMap faces hnd, ?_, ?_, ?_, by decide⟩
  · rintro ⟨name, v⟩ r hspec hx hy hw hh
    unfold spec_field_region at hspec
    unfold field_region
    by_cases hts : name = "timestamp"
    · simp [hts] at hspec
    · simp only [hts, if_false] at hspec ⊢
      cases v with
      | gst_structure face =>
        simp only at hspec ⊢
        cases h1 : uint_field face "x" with
        | none => simp [h1] at hspec
        | some x =>
        cases h2 : uint_field face "y" with
        | none => simp [h1, h2] at hspec
        | some y =>
        cases h3 : uint_field face "width" with
        | none => simp [h1, h2, h3] at hspec
        | some width =>
        cases h4 : uint_field face "height" with
        | none => simp [h1, h2, h3, h4] at hspec
        | some height =>
          simp only [h1, h2, h3, h4, Option.some.injEq] at hspec
          subst hspec
          simp only at hx hy hw hh
          simp only [face_rect, get_uint_of_uint_field face _ _ 0 h1,
            get_uint_of_uint_field face _ _ 0 h2, get_uint_of_uint_field face _ _ 0 h3,
            get_uint_of_uint_field face _ _ 0 h4, Option.some.injEq, CvRect.mk.injEq]
          refine ⟨?_, ?_, ?_, ?_⟩ <;> apply to_int32_of_fits <;> omega
      | _ => simp at hspec
  · intro face k
    exact ⟨fun v h => get_uint_of_uint_field face k v 0 h,
      fun h => get_uint_of_no_uint_field face k 0 h⟩
  · intro v
    simp [get_faces, gst_structure_n_fields, get_faces_loop, get_faces_body,
      gst_structure_nth_field_name]

/-- Witness for C1 (amended) at the blob of the specification's example. -/
theorem get_faces_regions_witness :
    (field_names blob_r0_timestamp).Nodup ∧
    get_faces blob_r0_timestamp = blob_r0_timestamp.filterMap field_region :=
  ⟨by decide, (get_faces_regions blob_r0_timestamp (by decide)).1⟩

/-- C2, as stated, fails: next to a well-formed region field, a field holding
a nested structure without `height` (malformed, so it should contribute no
region) still contributes a region, with height 0. -/
theorem get_faces_malformed_counterexample :
    (field_names blob_wellformed_malformed).Nodup ∧
    blob_wellformed_malformed.filterMap spec_field_region = [⟨10, 10, 20, 20⟩] ∧
    get_faces blob_wellformed_malformed = [⟨10, 10, 20, 20⟩, ⟨1, 2, 3, 0⟩] ∧
    get_faces blob_wellformed_malformed ≠ [⟨10, 10, 20, 20⟩] := by
  decide

/-- C2 (amended): decoding is local to each field and never aborted. In a blob
with unique field names, a field whose value is not a nested structure (wrong
shape or type) contributes no region and the regions of all other fields are
returned as without it; a field other than `timestamp` that holds a nested
`GstStructure` contributes exactly one region, placed between those of the
fields before and after it, also when a sub-field is missing or of another
type, the coordinate of such a sub-field being 0. -/
theorem get_faces_field_local (pre post : GstStructure) (name : String) (v : GValue)
    (hnd : (field_names (pre ++ (name, v) :: post)).Nodup) :
    ((∀ face, v ≠ GValue.gst_structure face) →
      get_faces (pre ++ (name, v) :: post) = get_faces pre ++ get_faces post) ∧
    (∀ face, v = GValue.gst_structure face → name ≠ "timestamp" →
      get_faces (pre ++ (name, v) :: post) = get_faces pre ++ face_rect face :: get_faces post ∧
      (uint_field face "x" = none → (face_rect face).x = 0) ∧
      (uint_field face "y" = none → (face_rect face).y = 0) ∧
      (uint_field face "width" = none → (face_rect face).width = 0) ∧
      (uint_field face "height" = none → (face_rect face).height = 0)) := by
  have hnd2 := hnd
  rw [field_names_append, List.nodup_append] at hnd2
  obtain ⟨hpre, hrest, _⟩ := hnd2
  have hpost : (field_names post).Nodup := by
    simp only [field_names, List.map_cons, List.nodup_cons] at hrest
    exact hrest.2
  have hall : get_faces (pre ++ (name, v) :: post)
      = get_faces pre ++ ((field_region (name, v)).toList ++ get_faces post) := by
    rw [get_faces_eq_filterMap _ hnd, get_faces_eq_filterMap _ hpre,
      get_faces_eq_filterMap _ hpost, List.filterMap_append, List.filterMap_cons]
    cases field_region (name, v) <;> simp
  constructor
  · intro hv
    have hfr : field_region (name, v) = none := by
      unfold field_region
      by_cases hts : name = "timestamp"
      · simp [hts]
      · simp only [hts, if_false]
    rw [hall, hfr]; rfl
  · intro face hv hts
    subst hv
    have hfr : field_region (name, GValue.gst_structure face) = some (face_rect face) := by
      simp [field_region, hts]
    refine ⟨by rw [hall, hfr]; rfl, ?_, ?_, ?_, ?_⟩ <;> intro h <;>
      exact get_uint_of_no_uint_field face _ 0 h

/-- Witness for C2 (amended): a well-formed field followed by a field of the
wrong type. -/
theorem get_faces_field_local_witness :
    (field_names ([("r0", GValue.gst_structure [("x", GValue.uint 10), ("y", GValue.uint 10),
        ("width", GValue.uint 20), ("height", GValue.uint 20)])] ++
      ("r1", GValue.uint 7) :: [])).Nodup ∧
    get_faces ([("r0", GValue.gst_structure [("x", GValue.uint 10), ("y", GValue.uint 10),
        ("width", GValue.uint 20), ("height", GValue.uint 20)])] ++
      ("r1", GValue.uint 7) :: [])
      = get_faces [("r0", GValue.gst_structure [("x", GValue.uint 10), ("y", GValue.uint 10),
        ("width", GValue.uint 20), ("height", GValue.uint 20)])] ++ get_faces [] :=
  ⟨by decide, (get_faces_field_local _ [] "r1" (GValue.uint 7) (by decide)).1
    (fun face h => by cases h)⟩

/-- C5, as stated, fails: sub-field values of 2^31 and above come out negative
in the `int` fields of the rectangle. -/
theorem get_faces_negative_counterexample :
    get_faces blob_large_values = [⟨-2147483648, 5, -1, 7⟩] ∧
    ¬ (∀ r ∈ get_faces blob_large_values, 0 ≤ r.x ∧ 0 ≤ r.y ∧ 0 ≤ r.width ∧ 0 ≤ r.height) := by
  refine ⟨by decide, ?_⟩
  intro h
  have h1 := h ⟨-2147483648, 5, -1, 7⟩ (by decide)
  simp only at h1
  omega

/-- C5 (amended): every region `get_faces` returns is decoded from a field of
the blob other than `timestamp` that holds a nested structure, and each of its
coordinates `x`, `y`, `width`, `height` is read from the same-named sub-field
of that structure: it is the unsigned value itself, hence non-negative, when
the value is below 2^31; it is the value minus 2^32, hence negative, when the
value is 2^31 or above; it is 0 when the sub-field is absent or not an
unsigned integer. So every coordinate lies in the signed 32-bit range, and all
four are non-negative when every unsigned sub-field value of the blob is below
2^31. -/
theorem get_faces_coordinates_int32 (faces : GstStructure) (r : CvRect)
    (hr : r ∈ get_faces faces) :
    (-2147483648 ≤ r.x ∧ r.x < 2147483648 ∧ -2147483648 ≤ r.y ∧ r.y < 2147483648 ∧
      -2147483648 ≤ r.width ∧ r.width < 2147483648 ∧
      -2147483648 ≤ r.height ∧ r.height < 2147483648) ∧
    ((∀ name face k v, (name, GValue.gst_structure face) ∈ faces →
        (k, GValue.uint v) ∈ face → v < 2147483648) →
      0 ≤ r.x ∧ 0 ≤ r.y ∧ 0 ≤ r.width ∧ 0 ≤ r.height) ∧
    ∃ name face, (name, GValue.gst_structure face) ∈ faces ∧ name ≠ "timestamp" ∧
      ((∀ v : Nat, uint_field face "x" = some v →
          (v < 2147483648 → r.x = v ∧ 0 ≤ r.x) ∧
          (2147483648 ≤ v → v < 4294967296 → r.x = (v : Int) - 4294967296 ∧ r.x < 0)) ∧
        (uint_field face "x" = none → r.x = 0)) ∧
      ((∀ v : Nat, uint_field face "y" = some v →
          (v < 2147483648 → r.y = v ∧ 0 ≤ r.y) ∧
          (2147483648 ≤ v → v < 4294967296 → r.y = (v : Int) - 4294967296 ∧ r.y < 0)) ∧
        (uint_field face "y" = none → r.y = 0)) ∧
      ((∀ v : Nat, uint_field face "width" = some v →
          (v < 2147483648 → r.width = v ∧ 0 ≤ r.width) ∧
          (2147483648 ≤ v → v < 4294967296 →
            r.width = (v : Int) - 4294967296 ∧ r.width < 0)) ∧
        (uint_field face "width" = none → r.width = 0)) ∧
      ((∀ v : Nat, uint_field face "height" = some v →
          (v < 2147483648 → r.height = v ∧ 0 ≤ r.height) ∧
          (2147483648 ≤ v → v < 4294967296 →
            r.height = (v : Int) - 4294967296 ∧ r.height < 0)) ∧
        (uint_field face "height" = none → r.height = 0)) := by
  obtain ⟨name, face, hmem, hts, rfl⟩ := get_faces_mem faces r hr
  have hb : ∀ k, -2147483648 ≤ gst_structure_get_uint face k 0 ∧
      gst_structure_get_uint face k 0 < 2147483648 := by
    intro k
    rcases get_uint_cases face k with h | ⟨v, _, h⟩
    · rw [h]; omega
    · rw [h]; exact ⟨to_int32_lower _, to_int32_upper _⟩
  refine ⟨?_, ?_, name, face, hmem, hts, get_uint_reads face "x", get_uint_reads face "y",
    get_uint_reads face "width", get_uint_reads face "height"⟩
  · simp only [face_rect]
    exact ⟨(hb _).1, (hb _).2, (hb _).1, (hb _).2, (hb _).1, (hb _).2, (hb _).1, (hb _).2⟩
  · intro hsmall
    have hp : ∀ k, 0 ≤ gst_structure_get_uint face k 0 := by
      intro k
      rcases get_uint_cases face k with h | ⟨v, hv, h⟩
      · rw [h]
      · have := hsmall name face k v hmem hv
        rw [h, to_int32_of_fits _ (by omega) (by omega)]
        omega
    simp only [face_rect]
    exact ⟨hp _, hp _, hp _, hp _⟩

/-- Witness for C5 (amended): the region decoded from the blob whose `x` is
2^31 and whose `width` is 2^32 - 1. -/
theorem get_faces_coordinates_int32_witness :
    (⟨-2147483648, 5, -1, 7⟩ : CvRect) ∈ get_faces blob_large_values ∧
    ∃ name face, (name, GValue.gst_structure face) ∈ blob_large_values ∧
      name ≠ "timestamp" ∧
      ((∀ v : Nat, uint_field face "x" = some v →
          (v < 2147483648 →
            (⟨-2147483648, 5, -1, 7⟩ : CvRect).x = v ∧ 0 ≤ (⟨-2147483648, 5, -1, 7⟩ : CvRect).x) ∧
          (2147483648 ≤ v → v < 4294967296 →
            (⟨-2147483648, 5, -1, 7⟩ : CvRect).x = (v : Int) - 4294967296 ∧
            (⟨-2147483648, 5, -1, 7⟩ : CvRect).x < 0)) ∧
        (uint_field face "x" = none → (⟨-2147483648, 5, -1, 7⟩ : CvRect).x = 0)) := by
  obtain ⟨_, _, name, face, hmem, hts, hx, _⟩ :=
    get_faces_coordinates_int32 blob_large_values ⟨-2147483648, 5, -1, 7⟩ (by decide)
  exact ⟨by decide, name, face, hmem, hts, hx⟩

/-! ## Lemmas: drawing -/

theorem map_bytes_length (f : Nat → Nat → Nat) : ∀ (k : Nat) (l : List Nat),
    (map_bytes f k l).length = l.length := by
  intro k l
  induction l generalizing k with
  | nil => rfl
  | cons b bs ih => simp [map_bytes, ih]

theorem map_bytes_comp (f g : Nat → Nat → Nat) : ∀ (k : Nat) (l : List Nat),
    map_bytes g k (map_bytes f k l) = map_bytes (fun i b => g i (f i b)) k l := by
  intro k l
  induction l generalizing k with
  | nil => rfl
  | cons b bs ih => simp [map_bytes, ih]

theorem map_bytes_congr (f g : Nat → Nat → Nat) (h : ∀ i b, f i b = g i b) :
    ∀ (k : Nat) (l : List Nat), map_bytes f k l = map_bytes g k l := by
  intro k l
  induction l generalizing k with
  | nil => rfl
  | cons b bs ih => simp [map_bytes, ih, h]

theorem map_bytes_keep : ∀ (k : Nat) (l : List Nat), map_bytes (fun _ b => b) k l = l := by
  intro k l
  induction l generalizing k with
  | nil => rfl
  | cons b bs ih => simp [map_bytes, ih]

/-- A draw either keeps the byte at offset `i` or sets it to the colour
component of its channel, whatever the byte held. -/
theorem put_pixel_byte_cases (raster : Raster) (img : IplImage) (pt1 pt2 : CvPoint)
    (color : CvScalar) (thickness line_type shift : Int) (i : Nat) :
    (∀ b, put_pixel_byte raster img pt1 pt2 color thickness line_type shift i b = b) ∨
    (∀ b, put_pixel_byte raster img pt1 pt2 color thickness line_type shift i b
      = saturate_uchar (color.val (i % img.widthStep.toNat % img.nChannels.toNat))) := by
  unfold put_pixel_byte
  by_cases h : ((i % img.widthStep.toNat / img.nChannels.toNat : Nat) : Int) < img.width ∧
      ((i / img.widthStep.toNat : Nat) : Int) < img.height ∧
      raster img.width img.height pt1 pt2 thickness line_type shift (i / img.widthStep.toNat)
        (i % img.widthStep.toNat / img.nChannels.toNat) = true
  · right; intro b; simp only [h, and_self, if_true]
  · left; intro b; simp only [h, if_false]

theorem paint_all_cons (raster : Raster) (img : IplImage) (r : CvRect) (rest : List CvRect)
    (i b : Nat) :
    paint_all raster img (r :: rest) i b
      = paint_all raster img rest i (put_pixel_byte raster img (cvPoint r.x r.y)
          (cvPoint (int_add r.x r.width) (int_add r.y r.height)) (cvScalar 0 255 0 0) 3 8 0 i b) :=
  rfl

theorem paint_all_cases (raster : Raster) (img : IplImage) (faces : List CvRect) (i : Nat) :
    (∀ b, paint_all raster img faces i b = b) ∨
    (∀ b, paint_all raster img faces i b
      = saturate_uchar ((cvScalar 0 255 0 0).val (i % img.widthStep.toNat % img.nChannels.toNat))) := by
  induction faces with
  | nil => left; intro b; rfl
  | cons r rest ih =>
    rcases put_pixel_byte_cases raster img (cvPoint r.x r.y)
        (cvPoint (int_add r.x r.width) (int_add r.y r.height)) (cvScalar 0 255 0 0) 3 8 0 i
      with h1 | h1 <;> rcases ih with h2 | h2
    · left; intro b; rw [paint_all_cons, h1, h2]
    · right; intro b; rw [paint_all_cons, h2]
    · right; intro b; rw [paint_all_cons, h1, h2]
    · right; intro b; rw [paint_all_cons, h2]

theorem paint_all_idem (raster : Raster) (img : IplImage) (faces : List CvRect) (i b : Nat) :
    paint_all raster img faces i (paint_all raster img faces i b)
      = paint_all raster img faces i b := by
  rcases paint_all_cases raster img faces i with h | h
  · rw [h, h]
  · rw [h, h b]

/-- The world after the draws for `faces` on a surface `img`. -/
theorem display_detections_eq (raster : Raster) (img : IplImage) :
    ∀ (faces : List CvRect) (w : World), w.priv.cvImage = some img →
      kms_image_overlay_display_detections_overlay_img raster faces w
        = some { w with
            trace := w.trace ++ faces.map draw_call,
            mem := fun a =>
              if a = img.imageData then map_bytes (paint_all raster img faces) 0 (w.mem a)
              else w.mem a } := by
  intro faces
  induction faces with
  | nil =>
    intro w _
    have hm : (fun a => if a = img.imageData then
        map_bytes (paint_all raster img []) 0 (w.mem a) else w.mem a) = w.mem := by
      funext a
      have : paint_all raster img [] = fun _ b => b := rfl
      rw [this, map_bytes_keep]
      simp
    simp only [kms_image_overlay_display_detections_overlay_img, List.map_nil, List.append_nil, hm]
  | cons r rest ih =>
    intro w himg
    simp only [kms_image_overlay_display_detections_overlay_img, himg, cvRectangle]
    rw [ih _ (by simpa [World.emit] using himg)]
    congr 1
    have hm : (fun a => if a = img.imageData then
        map_bytes (paint_all raster img rest) 0
          (if a = img.imageData then
            map_bytes (put_pixel_byte raster img (cvPoint r.x r.y)
              (cvPoint (int_add r.x r.width) (int_add r.y r.height)) (cvScalar 0 255 0 0) 3 8 0)
              0 (w.mem a)
           else w.mem a)
        else (if a = img.imageData then
            map_bytes (put_pixel_byte raster img (cvPoint r.x r.y)
              (cvPoint (int_add r.x r.width) (int_add r.y r.height)) (cvScalar 0 255 0 0) 3 8 0)
              0 (w.mem a)
           else w.mem a))
        = fun a => if a = img.imageData then
            map_bytes (paint_all raster img (r :: rest)) 0 (w.mem a) else w.mem a := by
      funext a
      by_cases ha : a = img.imageData
      · simp only [ha, if_true, map_bytes_comp]
        exact map_bytes_congr _ _ (fun i b => (paint_all_cons raster img r rest i b).symm) _ _
      · simp only [ha, if_false]
    simp only [World.emit, hm, List.map_cons, List.append_assoc, List.singleton_append, draw_call]

/-! ## Lemmas: the per-frame transform -/

theorem initialize_images_eq (frame : GstVideoFrame) (w : World)
    (hw : 0 ≤ frame.info.width) (hh : 0 ≤ frame.info.height) :
    kms_image_overlay_initialize_images frame w
      = some { w with
          priv := { w.priv with cvImage := some (surface_for frame w) },
          brk := if needs_surface frame w.priv.cvImage then w.brk + 1 else w.brk,
          trace := w.trace ++ surface_events frame w.priv.cvImage } := by
  have hsz : ¬ (frame.info.width < 0 ∨ frame.info.height < 0) := by omega
  unfold kms_image_overlay_initialize_images
  cases himg : w.priv.cvImage with
  | none =>
    simp only [cvCreateImage, hsz, if_false, surface_for, himg, needs_surface, surface_events,
      World.emit, fresh_image, if_true, cvSize]
  | some img =>
    by_cases hd : img.width ≠ frame.info.width ∨ img.height ≠ frame.info.height
    · simp only [hd, if_true, cvReleaseImage, himg, cvCreateImage, hsz, if_false, surface_for,
        needs_surface, surface_events, World.emit, fresh_image, cvSize, decide_True,
        List.append_assoc, List.singleton_append]
    · simp only [hd, if_false, surface_for, himg, needs_surface, surface_events, decide_False,
        List.append_nil, Bool.false_eq_true]
      cases w with
      | mk priv mem brk trace =>
        cases priv with
        | mk cvImage flag =>
          simp only at himg
          subst himg
          rfl

theorem display_detections_mk (raster : Raster) (img : IplImage) (faces : List CvRect)
    (flag : Bool) (mem : Nat → List Nat) (brk : Nat) (trace : List Event) :
    kms_image_overlay_display_detections_overlay_img raster faces
        { priv := { cvImage := some img, show_debug_info := flag }, mem := mem, brk := brk,
          trace := trace }
      = some { priv := { cvImage := some img, show_debug_info := flag },
               mem := fun a =>
                 if a = img.imageData then map_bytes (paint_all raster img faces) 0 (mem a)
                 else mem a,
               brk := brk, trace := trace ++ faces.map draw_call } :=
  display_detections_eq raster img faces _ rfl

theorem surface_for_congr (frame : GstVideoFrame) (w : World) (mem : Nat → List Nat)
    (trace : List Event) :
    surface_for frame { priv := w.priv, mem := mem, brk := w.brk, trace := trace }
      = surface_for frame w :=
  rfl

theorem mem_paint_nil (raster : Raster) (img : IplImage) (d : Nat) (mem : Nat → List Nat) :
    (fun a => if a = d then map_bytes (paint_all raster img []) 0 (mem a) else mem a) = mem := by
  funext a
  have : paint_all raster img [] = fun _ b => b := rfl
  rw [this, map_bytes_keep]
  simp

theorem transform_frame_ip_eq (raster : Raster) (frame : GstVideoFrame) (w : World)
    (hw : 0 ≤ frame.info.width) (hh : 0 ≤ frame.info.height) :
    kms_image_overlay_transform_frame_ip raster frame w
      = some (GstFlowReturn.GST_FLOW_OK, transform_result raster frame w) := by
  unfold kms_image_overlay_transform_frame_ip
  simp only [initialize_images_eq frame _ hw hh, store_imageData, World.emit, surface_for_congr]
  cases hm : frame.buffer.serializable_meta with
  | none =>
    simp only [transform_frame_ip_end, transform_result, transform_events, frame_faces, hm,
      World.emit, mem_paint_nil, List.map_nil, List.append_nil, List.append_assoc,
      List.singleton_append, List.cons_append, List.nil_append]
  | some metadata =>
    cases hf : get_faces metadata.data with
    | nil =>
      simp only [transform_frame_ip_end, transform_result, transform_events, frame_faces, hm, hf,
        World.emit, mem_paint_nil, List.map_nil, List.append_nil, List.append_assoc,
        List.singleton_append, List.cons_append, List.nil_append]
    | cons r rest =>
      simp only [hf, display_detections_mk]
      simp only [transform_frame_ip_end, transform_result, transform_events, frame_faces, hm, hf,
        World.emit, List.append_assoc,
        List.singleton_append, List.cons_append, List.nil_append]

theorem surface_for_size (frame : GstVideoFrame) (w : World) :
    (surface_for frame w).width = frame.info.width ∧
    (surface_for frame w).height = frame.info.height := by
  unfold surface_for
  cases w.priv.cvImage with
  | none => exact ⟨rfl, rfl⟩
  | some img =>
    by_cases hd : img.width ≠ frame.info.width ∨ img.height ≠ frame.info.height
    · simp only [hd, if_true, fresh_image, and_self]
    · simp only [hd, if_false]
      constructor
      · by_contra h; exact hd (Or.inl h)
      · by_contra h; exact hd (Or.inr h)

theorem surface_events_not_draw (frame : GstVideoFrame) (cvImage : Option IplImage) :
    ∀ e ∈ surface_events frame cvImage, e.is_draw = false := by
  intro e he
  unfold surface_events at he
  cases cvImage with
  | none =>
    simp only [List.mem_singleton] at he
    subst he; rfl
  | some img =>
    by_cases hd : img.width ≠ frame.info.width ∨ img.height ≠ frame.info.height
    · simp only [hd, if_true, List.mem_cons, List.mem_singleton, List.not_mem_nil, or_false] at he
      rcases he with he | he <;> subst he <;> rfl
    · simp only [hd, if_false, List.not_mem_nil] at he

/-! ## The per-frame transform (C3, C4) -/

/-- C3: on a frame without attached metadata (of non-negative size, and with
any prior surface) `kms_image_overlay_transform_frame_ip` returns
`GST_FLOW_OK`, issues no drawing call, and leaves every storage block, the
frame's pixel buffer included, identical in content and length. The frame
descriptor is only read, so its dimensions are the same after the call. -/
theorem transform_no_metadata_passthrough (raster : Raster) (frame : GstVideoFrame) (w : World)
    (hmeta : frame.buffer.serializable_meta = none)
    (hw : 0 ≤ frame.info.width) (hh : 0 ≤ frame.info.height) :
    ∃ w', kms_image_overlay_transform_frame_ip raster frame w
        = some (GstFlowReturn.GST_FLOW_OK, w') ∧
      w'.mem = w.mem ∧
      w'.mem frame.buffer.data = w.mem frame.buffer.data ∧
      (w'.mem frame.buffer.data).length = (w.mem frame.buffer.data).length ∧
      ∃ events, w'.trace = w.trace ++ events ∧ ∀ e ∈ events, e.is_draw = false := by
  have hfaces : frame_faces frame = [] := by simp [frame_faces, hmeta]
  have hmem : (transform_result raster frame w).mem = w.mem := by
    simp only [transform_result, hfaces, mem_paint_nil]
  refine ⟨transform_result raster frame w, transform_frame_ip_eq raster frame w hw hh, hmem,
    by rw [hmem], by rw [hmem], transform_events frame w.priv.cvImage, rfl, ?_⟩
  intro e he
  simp only [transform_events, hfaces, List.map_nil, List.append_nil, List.mem_cons,
    List.mem_append, List.mem_singleton, List.not_mem_nil, or_false] at he
  rcases he with ((he | he) | he | he | he) | he | he
  · subst he; rfl
  · exact surface_events_not_draw frame _ e he
  all_goals subst he; rfl

/-- Witness for C3 at a 4x4 frame without metadata on a fresh element. -/
theorem transform_no_metadata_passthrough_witness :
    ∃ w', kms_image_overlay_transform_frame_ip outline_raster frame_plain world_fresh
        = some (GstFlowReturn.GST_FLOW_OK, w') ∧
      w'.mem = world_fresh.mem ∧
      w'.mem frame_plain.buffer.data = world_fresh.mem frame_plain.buffer.data ∧
      (w'.mem frame_plain.buffer.data).length = (world_fresh.mem frame_plain.buffer.data).length ∧
      ∃ events, w'.trace = world_fresh.trace ++ events ∧ ∀ e ∈ events, e.is_draw = false :=
  transform_no_metadata_passthrough outline_raster frame_plain world_fresh rfl
    (by decide) (by decide)

/-- C4: for every prior surface state and every frame of positive width and
height, `kms_image_overlay_initialize_images` returns with a surface whose
recorded width and height are the frame's; when an existing surface already
has the frame's size the call changes nothing at all (same header, no
allocation or release); and after two consecutive frames, whatever the size
of the first, the surface has the second frame's size and its pixel storage
points at the second frame's buffer. -/
theorem initialize_images_dimensions (frame : GstVideoFrame) (w : World)
    (hw : 0 < frame.info.width) (hh : 0 < frame.info.height) :
    (∃ w' img, kms_image_overlay_initialize_images frame w = some w' ∧
      w'.priv.cvImage = some img ∧
      img.width = frame.info.width ∧ img.height = frame.info.height) ∧
    (∀ img, w.priv.cvImage = some img → img.width = frame.info.width →
      img.height = frame.info.height →
      kms_image_overlay_initialize_images frame w = some w) ∧
    (∀ (raster : Raster) (first : GstVideoFrame),
      0 < first.info.width → 0 < first.info.height →
      ∃ w1 w2 img,
        kms_image_overlay_transform_frame_ip raster first w
          = some (GstFlowReturn.GST_FLOW_OK, w1) ∧
        kms_image_overlay_transform_frame_ip raster frame w1
          = some (GstFlowReturn.GST_FLOW_OK, w2) ∧
        w2.priv.cvImage = some img ∧
        img.width = frame.info.width ∧ img.height = frame.info.height ∧
        img.imageData = frame.buffer.data) := by
  refine ⟨?_, ?_, ?_⟩
  · exact ⟨_, surface_for frame w, initialize_images_eq frame w (by omega) (by omega), rfl,
      (surface_for_size frame w).1, (surface_for_size frame w).2⟩
  · intro img himg h1 h2
    unfold kms_image_overlay_initialize_images
    simp only [himg, h1, h2, ne_eq, not_true_eq_false, or_self, if_false]
  · intro raster first h1 h2
    refine ⟨transform_result raster first w,
      transform_result raster frame (transform_result raster first w), _,
      transform_frame_ip_eq raster first w (by omega) (by omega),
      transform_frame_ip_eq raster frame _ (by omega) (by omega), rfl, ?_, ?_, rfl⟩
    · exact (surface_for_size frame _).1
    · exact (surface_for_size frame _).2

/-- Witness for C4: a 2x3 frame arriving at an element whose surface is 4x4. -/
theorem initialize_images_dimensions_witness :
    ∃ w' img, kms_image_overlay_initialize_images frame_small world_bound = some w' ∧
      w'.priv.cvImage = some img ∧
      img.width = frame_small.info.width ∧ img.height = frame_small.info.height :=
  (initialize_images_dimensions frame_small world_bound (by decide) (by decide)).1

/-! ## Drawing (C6, C9) -/

/-- C9, as stated, fails: for the region `{x = 2^31 - 1, y = 0, width = 1,
height = 0}` the claimed far corner has abscissa `x + width = 2^31`, which no
`int` holds; the call is issued with `-2^31`. -/
theorem display_detections_overflow_counterexample :
    (kms_image_overlay_display_detections_overlay_img outline_raster [rect_overflow]
        world_bound).map World.trace
      = some [Event.cvRectangle ⟨2147483647, 0⟩ ⟨-2147483648, 0⟩ ⟨0, 255, 0, 0⟩ 3 8 0] ∧
    spec_draw_call rect_overflow
      = Event.cvRectangle ⟨2147483647, 0⟩ ⟨2147483648, 0⟩ ⟨0, 255, 0, 0⟩ 3 8 0 ∧
    (kms_image_overlay_display_detections_overlay_img outline_raster [rect_overflow]
        world_bound).map World.trace
      ≠ some ([rect_overflow].map spec_draw_call) := by
  decide

/-- C9 (amended): on a bound surface, for every list of regions
`kms_image_overlay_display_detections_overlay_img` issues exactly one
`cvRectangle` call per region, in list order and nothing else, with corners
`(x, y)` and `(x + width, y + height)` computed in 32-bit `int` arithmetic,
colour `(0, 255, 0, 0)` (B=0, G=255, R=0), thickness 3, line type 8 and shift
0; the far corner is exactly `(x + width, y + height)` whenever both sums fit
in a signed 32-bit integer; the empty list issues no call. -/
theorem display_detections_draw_calls (raster : Raster) (faces : List CvRect) (w : World)
    (img : IplImage) (himg : w.priv.cvImage = some img) :
    ∃ w', kms_image_overlay_display_detections_overlay_img raster faces w = some w' ∧
      w'.trace = w.trace ++ faces.map (fun r =>
        Event.cvRectangle ⟨r.x, r.y⟩ ⟨to_int32 (r.x + r.width), to_int32 (r.y + r.height)⟩
          ⟨0, 255, 0, 0⟩ 3 8 0) ∧
      (∀ r ∈ faces,
        -2147483648 ≤ r.x + r.width → r.x + r.width < 2147483648 →
        -2147483648 ≤ r.y + r.height → r.y + r.height < 2147483648 →
        draw_call r = spec_draw_call r) ∧
      (faces = [] → w'.trace = w.trace) := by
  refine ⟨_, display_detections_eq raster img faces w himg, rfl, ?_, ?_⟩
  · intro r _ h1 h2 h3 h4
    simp only [draw_call, spec_draw_call, int_add, cvPoint, cvScalar,
      to_int32_of_fits _ h1 h2, to_int32_of_fits _ h3 h4]
  · intro h
    subst h
    simp

/-- Witness for C9 (amended): one region on the bound 4x4 surface. -/
theorem display_detections_draw_calls_witness :
    ∃ w', kms_image_overlay_display_detections_overlay_img outline_raster [⟨0, 0, 2, 2⟩]
        world_bound = some w' ∧
      w'.trace = world_bound.trace ++ [Event.cvRectangle ⟨0, 0⟩ ⟨2, 2⟩ ⟨0, 255, 0, 0⟩ 3 8 0] := by
  obtain ⟨w', h1, h2, _⟩ :=
    display_detections_draw_calls outline_raster [⟨0, 0, 2, 2⟩] world_bound
      ⟨3, 8, 4, 4, 12, 0, 1000⟩ rfl
  exact ⟨w', h1, h2⟩

theorem repaint_mem (raster : Raster) (img : IplImage) (faces : List CvRect)
    (mem : Nat → List Nat) :
    (fun a => if a = img.imageData then
        map_bytes (paint_all raster img faces) 0
          (if a = img.imageData then map_bytes (paint_all raster img faces) 0 (mem a) else mem a)
      else (if a = img.imageData then map_bytes (paint_all raster img faces) 0 (mem a) else mem a))
    = fun a => if a = img.imageData then map_bytes (paint_all raster img faces) 0 (mem a)
        else mem a := by
  funext a
  by_cases ha : a = img.imageData
  · simp only [ha, if_true, map_bytes_comp]
    exact map_bytes_congr _ _ (fun i b => paint_all_idem raster img faces i b) _ _
  · simp only [ha, if_false]

theorem surface_for_of_some (frame : GstVideoFrame) (w : World) (img : IplImage)
    (himg : w.priv.cvImage = some img) (h1 : img.width = frame.info.width)
    (h2 : img.height = frame.info.height) : surface_for frame w = img := by
  simp only [surface_for, himg, h1, h2, ne_eq, not_true_eq_false, or_self, if_false]

theorem surface_for_bound (raster : Raster) (frame : GstVideoFrame) (w : World) :
    surface_for frame (transform_result raster frame w)
      = { surface_for frame w with imageData := frame.buffer.data } :=
  surface_for_of_some frame _ _ rfl (surface_for_size frame w).1 (surface_for_size frame w).2

/-- C6: drawing is idempotent. On every bound surface and for every list of
regions, running `kms_image_overlay_display_detections_overlay_img` a second
time with the same regions leaves every storage block, the bound frame buffer
included, as the first run left it; and running
`kms_image_overlay_transform_frame_ip` twice on the same frame (same buffer,
same metadata) leaves the memory as one run does. -/
theorem display_detections_idempotent (raster : Raster) (faces : List CvRect) :
    (∀ (w : World) (img : IplImage), w.priv.cvImage = some img →
      ∃ w1 w2,
        kms_image_overlay_display_detections_overlay_img raster faces w = some w1 ∧
        kms_image_overlay_display_detections_overlay_img raster faces w1 = some w2 ∧
        w2.mem = w1.mem ∧ w2.mem img.imageData = w1.mem img.imageData) ∧
    (∀ (frame : GstVideoFrame) (w : World),
      0 ≤ frame.info.width → 0 ≤ frame.info.height →
      ∃ w1 w2,
        kms_image_overlay_transform_frame_ip raster frame w
          = some (GstFlowReturn.GST_FLOW_OK, w1) ∧
        kms_image_overlay_transform_frame_ip raster frame w1
          = some (GstFlowReturn.GST_FLOW_OK, w2) ∧
        w2.mem = w1.mem ∧ w2.mem frame.buffer.data = w1.mem frame.buffer.data) := by
  constructor
  · intro w img himg
    have hmem : ∀ (w1 : World), w1 = { w with
            trace := w.trace ++ faces.map draw_call,
            mem := fun a =>
              if a = img.imageData then map_bytes (paint_all raster img faces) 0 (w.mem a)
              else w.mem a } →
        ({ w1 with
            trace := w1.trace ++ faces.map draw_call,
            mem := fun a =>
              if a = img.imageData then map_bytes (paint_all raster img faces) 0 (w1.mem a)
              else w1.mem a } : World).mem = w1.mem := by
      intro w1 h1
      subst h1
      exact repaint_mem raster img faces w.mem
    refine ⟨_, _, display_detections_eq raster img faces w himg,
      display_detections_eq raster img faces _ himg, hmem _ rfl, ?_⟩
    rw [hmem _ rfl]
  · intro frame w hw hh
    have hmem : (transform_result raster frame (transform_result raster frame w)).mem
        = (transform_result raster frame w).mem := by
      have hb := surface_for_bound raster frame w
      have h := repaint_mem raster
        { surface_for frame w with imageData := frame.buffer.data } (frame_faces frame) w.mem
      calc (transform_result raster frame (transform_result raster frame w)).mem
          = fun a => if a = frame.buffer.data then
              map_bytes (paint_all raster
                { surface_for frame (transform_result raster frame w) with
                  imageData := frame.buffer.data } (frame_faces frame)) 0
                ((transform_result raster frame w).mem a)
              else (transform_result raster frame w).mem a := rfl
        _ = fun a => if a = frame.buffer.data then
              map_bytes (paint_all raster
                { surface_for frame w with imageData := frame.buffer.data }
                (frame_faces frame)) 0
                ((transform_result raster frame w).mem a)
              else (transform_result raster frame w).mem a := by rw [hb]
        _ = (transform_result raster frame w).mem := h
    refine ⟨_, _, transform_frame_ip_eq raster frame w hw hh,
      transform_frame_ip_eq raster frame _ hw hh, hmem, ?_⟩
    rw [hmem]

/-- Witness for C6: the 4x4 frame carrying one region, on the bound surface
and on a fresh element. -/
theorem display_detections_idempotent_witness :
    (∃ w1 w2,
        kms_image_overlay_display_detections_overlay_img outline_raster [⟨0, 0, 2, 2⟩]
          world_bound = some w1 ∧
        kms_image_overlay_display_detections_overlay_img outline_raster [⟨0, 0, 2, 2⟩]
          w1 = some w2 ∧
        w2.mem = w1.mem ∧ w2.mem 0 = w1.mem 0) ∧
    (∃ w1 w2,
        kms_image_overlay_transform_frame_ip outline_raster frame_with_region world_fresh
          = some (GstFlowReturn.GST_FLOW_OK, w1) ∧
        kms_image_overlay_transform_frame_ip outline_raster frame_with_region w1
          = some (GstFlowReturn.GST_FLOW_OK, w2) ∧
        w2.mem = w1.mem ∧ w2.mem frame_with_region.buffer.data
          = w1.mem frame_with_region.buffer.data) :=
  ⟨(display_detections_idempotent outline_raster [⟨0, 0, 2, 2⟩]).1 world_bound
      ⟨3, 8, 4, 4, 12, 0, 1000⟩ rfl,
   (display_detections_idempotent outline_raster [⟨0, 0, 2, 2⟩]).2 frame_with_region
      world_fresh (by decide) (by decide)⟩

/-! ## Property accessors (C7) -/

/-- C7: reading `show-debug-region` after writing `b` returns `b`, on every
state of the instance; a freshly initialised instance reports `false`; and
`kms_image_overlay_set_property` changes nothing of the instance but the flag
(the surface handle, the memory and the allocator are untouched, and an unknown
property id leaves the flag as it was). -/
theorem show_debug_info_roundtrip (w : World) (b : Bool) (out : GValue) :
    (kms_image_overlay_get_property PROP_SHOW_DEBUG_INFO out
      (kms_image_overlay_set_property PROP_SHOW_DEBUG_INFO (GValue.boolean b) w)).1
      = GValue.boolean b ∧
    (kms_image_overlay_get_property PROP_SHOW_DEBUG_INFO out (kms_image_overlay_init w)).1
      = GValue.boolean false ∧
    (kms_image_overlay_set_property PROP_SHOW_DEBUG_INFO (GValue.boolean b) w).priv
      = { w.priv with show_debug_info := b } ∧
    (∀ (property_id : Nat) (value : GValue),
      (kms_image_overlay_set_property property_id value w).priv.cvImage = w.priv.cvImage ∧
      (kms_image_overlay_set_property property_id value w).mem = w.mem ∧
      (kms_image_overlay_set_property property_id value w).brk = w.brk ∧
      (property_id ≠ PROP_SHOW_DEBUG_INFO →
        (kms_image_overlay_set_property property_id value w).priv = w.priv)) ∧
    (∀ (property_id : Nat) (value : GValue),
      (kms_image_overlay_get_property property_id value w).2.priv = w.priv ∧
      (kms_image_overlay_get_property property_id value w).2.mem = w.mem) := by
  refine ⟨rfl, rfl, rfl, ?_, ?_⟩
  · intro property_id value
    unfold kms_image_overlay_set_property
    by_cases h : property_id = PROP_SHOW_DEBUG_INFO
    · simp [h, World.emit]
    · simp [h, World.emit]
  · intro property_id value
    unfold kms_image_overlay_get_property
    by_cases h : property_id = PROP_SHOW_DEBUG_INFO
    · simp [h, World.emit]
    · simp [h, World.emit]

/-! ## The debug flag and the rendering path (C8) -/

theorem cvRectangle_with_debug_info (raster : Raster) (img : Option IplImage)
    (pt1 pt2 : CvPoint) (color : CvScalar) (thickness line_type shift : Int) (b : Bool)
    (w : World) :
    cvRectangle raster img pt1 pt2 color thickness line_type shift (w.with_debug_info b)
      = (cvRectangle raster img pt1 pt2 color thickness line_type shift w).map
          (World.with_debug_info b) := by
  cases img <;> rfl

theorem display_detections_with_debug_info (raster : Raster) (b : Bool) :
    ∀ (faces : List CvRect) (w : World),
      kms_image_overlay_display_detections_overlay_img raster faces (w.with_debug_info b)
        = (kms_image_overlay_display_detections_overlay_img raster faces w).map
            (World.with_debug_info b) := by
  intro faces
  induction faces with
  | nil => intro w; rfl
  | cons r rest ih =>
    intro w
    simp only [kms_image_overlay_display_detections_overlay_img]
    have hp : (w.with_debug_info b).priv.cvImage = w.priv.cvImage := rfl
    rw [hp, cvRectangle_with_debug_info]
    cases cvRectangle raster w.priv.cvImage (cvPoint r.x r.y)
        (cvPoint (int_add r.x r.width) (int_add r.y r.height)) (cvScalar 0 255 0 0) 3 8 0 w with
    | none => rfl
    | some w1 => simp only [Option.map_some', ih]

theorem initialize_images_with_debug_info (frame : GstVideoFrame) (b : Bool) (w : World) :
    kms_image_overlay_initialize_images frame (w.with_debug_info b)
      = (kms_image_overlay_initialize_images frame w).map (World.with_debug_info b) := by
  unfold kms_image_overlay_initialize_images
  have hp : (w.with_debug_info b).priv.cvImage = w.priv.cvImage := rfl
  rw [hp]
  cases himg : w.priv.cvImage with
  | none =>
    simp only [cvCreateImage]
    by_cases hs : (cvSize frame.info.width frame.info.height).width < 0 ∨
        (cvSize frame.info.width frame.info.height).height < 0
    · simp only [hs, if_true, Option.map_none']
    · simp only [hs, if_false, Option.map_some']
      rfl
  | some img =>
    by_cases hd : img.width ≠ frame.info.width ∨ img.height ≠ frame.info.height
    · simp only [hd, if_true, cvCreateImage]
      by_cases hs : (cvSize frame.info.width frame.info.height).width < 0 ∨
          (cvSize frame.info.width frame.info.height).height < 0
      · simp only [hs, if_true, Option.map_none']
      · simp only [hs, if_false, Option.map_some', cvReleaseImage, himg]
        have hq : (w.with_debug_info b).priv.cvImage = some img := himg
        simp only [hq]
        rfl
    · simp only [hd, if_false, Option.map_some']

theorem store_imageData_with_debug_info (data : Nat) (b : Bool) (w : World) :
    store_imageData data (w.with_debug_info b)
      = (store_imageData data w).map (World.with_debug_info b) := by
  unfold store_imageData
  have hp : (w.with_debug_info b).priv.cvImage = w.priv.cvImage := rfl
  rw [hp]
  cases w.priv.cvImage <;> rfl

/-- The transform commutes with setting the debug flag. -/
theorem transform_with_debug_info (raster : Raster) (frame : GstVideoFrame) (b : Bool)
    (w : World) :
    kms_image_overlay_transform_frame_ip raster frame (w.with_debug_info b)
      = (kms_image_overlay_transform_frame_ip raster frame w).map
          (fun p => (p.1, p.2.with_debug_info b)) := by
  unfold kms_image_overlay_transform_frame_ip
  have h0 : (w.with_debug_info b).emit (Event.gst_buffer_map frame.buffer.data)
      = (w.emit (Event.gst_buffer_map frame.buffer.data)).with_debug_info b := rfl
  simp only [h0, initialize_images_with_debug_info]
  cases kms_image_overlay_initialize_images frame
      (w.emit (Event.gst_buffer_map frame.buffer.data)) with
  | none => rfl
  | some w1 =>
    simp only [Option.map_some', store_imageData_with_debug_info]
    cases store_imageData frame.buffer.data w1 with
    | none => rfl
    | some w2 =>
      simp only [Option.map_some']
      have h1 : ((w2.with_debug_info b).emit Event.GST_OBJECT_LOCK).emit
          (Event.kms_buffer_get_serializable_meta frame.buffer.data)
          = ((w2.emit Event.GST_OBJECT_LOCK).emit
              (Event.kms_buffer_get_serializable_meta frame.buffer.data)).with_debug_info b :=
        rfl
      simp only [h1]
      cases frame.buffer.serializable_meta with
      | none => rfl
      | some metadata =>
        simp only []
        cases get_faces metadata.data with
        | nil => rfl
        | cons r rest =>
          simp only [display_detections_with_debug_info]
          cases kms_image_overlay_display_detections_overlay_img raster (r :: rest)
              ((w2.emit Event.GST_OBJECT_LOCK).emit
                (Event.kms_buffer_get_serializable_meta frame.buffer.data)) with
          | none => rfl
          | some w3 => rfl

/-- C8: the debug flag is inert for rendering. For every frame, metadata blob
and element state, two runs of `kms_image_overlay_transform_frame_ip` that
differ only in `show_debug_info` both fail or both return, with the same
status, the same memory (hence the same pixel buffer), the same surface
handle, the same allocator state and the same sequence of calls; and a run
leaves the flag as it found it. -/
theorem show_debug_info_inert (raster : Raster) (frame : GstVideoFrame) (w : World)
    (b1 b2 : Bool) :
    (kms_image_overlay_transform_frame_ip raster frame (w.with_debug_info b1)).map
        (fun p => (p.1, p.2.mem, p.2.priv.cvImage, p.2.brk, p.2.trace))
      = (kms_image_overlay_transform_frame_ip raster frame (w.with_debug_info b2)).map
        (fun p => (p.1, p.2.mem, p.2.priv.cvImage, p.2.brk, p.2.trace)) ∧
    (∀ status w', kms_image_overlay_transform_frame_ip raster frame (w.with_debug_info b1)
        = some (status, w') → w'.priv.show_debug_info = b1) := by
  constructor
  · rw [transform_with_debug_info raster frame b1 w, transform_with_debug_info raster frame b2 w]
    cases kms_image_overlay_transform_frame_ip raster frame w <;> rfl
  · intro status w' h
    rw [transform_with_debug_info raster frame b1 w] at h
    cases hr : kms_image_overlay_transform_frame_ip raster frame w with
    | none => simp [hr] at h
    | some p =>
      simp only [hr, Option.map_some', Option.some.injEq, Prod.mk.injEq] at h
      rw [← h.2]
      rfl

/-! ## Locking (C10) -/

theorem lock_held_after_draws (held : Bool) (es : List Event) : ∀ (faces : List CvRect),
    lock_held_after held (faces.map draw_call ++ es) = lock_held_after held es := by
  intro faces
  induction faces with
  | nil => rfl
  | cons r rest ih => simpa [draw_call, lock_held_after] using ih

theorem draws_guarded_draws (es : List Event) : ∀ (faces : List CvRect),
    draws_guarded true (faces.map draw_call ++ es) = draws_guarded true es := by
  intro faces
  induction faces with
  | nil => rfl
  | cons r rest ih => simpa [draw_call, draws_guarded] using ih

/-- C10, as stated, fails: on a frame reaching a fresh element the surface is
allocated and its pixel storage repointed before `GST_OBJECT_LOCK`, so the
surface handle is changed while the lock is not held. -/
theorem transform_surface_unguarded_counterexample :
    (kms_image_overlay_transform_frame_ip outline_raster frame_plain world_fresh).map
        (fun p => p.2.trace)
      = some [Event.gst_buffer_map 0, Event.cvCreateImage ⟨4, 4⟩ 8 3, Event.store_imageData 0,
          Event.GST_OBJECT_LOCK, Event.kms_buffer_get_serializable_meta 0,
          Event.GST_OBJECT_UNLOCK, Event.gst_buffer_unmap 0] ∧
    (kms_image_overlay_transform_frame_ip outline_raster frame_plain world_fresh).map
        (fun p => surface_guarded false p.2.trace) = some false := by
  decide

/-- C10 (amended): in every execution of `kms_image_overlay_transform_frame_ip`
on a frame of non-negative size the calls are, in order: map the buffer, the
surface release and allocation of `kms_image_overlay_initialize_images` (if
any), the store repointing the pixel storage, `GST_OBJECT_LOCK`, the metadata
lookup, one draw per decoded region, `GST_OBJECT_UNLOCK`, unmap. So the surface
handle is changed before the lock is acquired, every drawing call happens
while the lock is held, and the lock is released before return on every
path. -/
theorem transform_lock_discipline (raster : Raster) (frame : GstVideoFrame) (w : World)
    (hw : 0 ≤ frame.info.width) (hh : 0 ≤ frame.info.height) :
    ∃ w' events, kms_image_overlay_transform_frame_ip raster frame w
        = some (GstFlowReturn.GST_FLOW_OK, w') ∧
      w'.trace = w.trace ++ events ∧
      events = Event.gst_buffer_map frame.buffer.data :: surface_events frame w.priv.cvImage ++
        [Event.store_imageData frame.buffer.data, Event.GST_OBJECT_LOCK,
         Event.kms_buffer_get_serializable_meta frame.buffer.data] ++
        (frame_faces frame).map draw_call ++
        [Event.GST_OBJECT_UNLOCK, Event.gst_buffer_unmap frame.buffer.data] ∧
      surface_guarded false events = false ∧
      draws_guarded false events = true ∧
      lock_held_after false events = false := by
  refine ⟨transform_result raster frame w, transform_events frame w.priv.cvImage,
    transform_frame_ip_eq raster frame w hw hh, rfl, rfl, ?_, ?_, ?_⟩
  · unfold transform_events surface_events
    cases w.priv.cvImage with
    | none => simp [surface_guarded, Event.mutates_surface]
    | some img =>
      by_cases hd : img.width ≠ frame.info.width ∨ img.height ≠ frame.info.height
      · simp [hd, surface_guarded, Event.mutates_surface]
      · simp [hd, surface_guarded, Event.mutates_surface]
  · unfold transform_events surface_events
    cases w.priv.cvImage with
    | none => simp [draws_guarded, Event.is_draw, draws_guarded_draws]
    | some img =>
      by_cases hd : img.width ≠ frame.info.width ∨ img.height ≠ frame.info.height
      · simp [hd, draws_guarded, Event.is_draw, draws_guarded_draws]
      · simp [hd, draws_guarded, Event.is_draw, draws_guarded_draws]
  · unfold transform_events surface_events
    cases w.priv.cvImage with
    | none => simp [lock_held_after, lock_held_after_draws]
    | some img =>
      by_cases hd : img.width ≠ frame.info.width ∨ img.height ≠ frame.info.height
      · simp [hd, lock_held_after, lock_held_after_draws]
      · simp [hd, lock_held_after, lock_held_after_draws]

/-- Witness for C10 (amended): the 4x4 frame carrying one region on a fresh
element. -/
theorem transform_lock_discipline_witness :
    ∃ w' events, kms_image_overlay_transform_frame_ip outline_raster frame_with_region
        world_fresh = some (GstFlowReturn.GST_FLOW_OK, w') ∧
      w'.trace = world_fresh.trace ++ events ∧
      surface_guarded false events = false ∧
      draws_guarded false events = true ∧
      lock_held_after false events = false := by
  obtain ⟨w', events, h1, h2, _, h4, h5, h6⟩ :=
    transform_lock_discipline outline_raster frame_with_region world_fresh
      (by decide) (by decide)
  exact ⟨w', events, h1, h2, h4, h5, h6⟩

end KmsImageOverlay
